import Mathlib

/-!
Shallow embedding of the expose.ai worker pipeline
(src/worker/src/util/bpc-analyzer.ts, src/worker/src/index.ts,
src/worker/src/ml/ai-detector.ts, src/worker/src/util/tokenizer.ts,
src/unnamed/part_007) together with theorems settling the frozen claims.

Numeric values are modelled over an arbitrary linear ordered field `α`
(instantiated at `ℚ` for concrete evaluations and at `ℝ` where the
Shannon-entropy computation of `calculateBPC` is involved).  JavaScript's
IEEE doubles are idealised as exact field arithmetic; the one JS quirk
that matters, `x || 0` turning the `0/0` `NaN` of an empty average into
`0`, coincides with Mathlib's `x / 0 = 0` convention and is noted where
used.
-/

/-- Pipeline stage of one comment summary
(`'bpc' | 'ml' | 'context'` in src/worker/src/lib/types.ts). -/
inductive Stage where
  | bpc
  | ml
  | context
deriving DecidableEq, Repr

/-- `AnalysisPerCommentSummary` from src/worker/src/lib/types.ts.
Optional TS fields become `Option`; absent sub-scores are `none`,
distinguishable from a present zero. -/
structure AnalysisPerCommentSummary (α : Type) where
  commentId : String
  score : α
  numTokens : ℕ
  bpcScore : Option α := none
  perplexityScore : Option α := none
  bertScore : Option α := none
  stage : Stage
  usedParentContext : Bool := false
  confidence : Option α := none
  isInconclusive : Bool := false
deriving DecidableEq, Repr

/-- `ScoringWeights` from src/worker/src/util/bpc-analyzer.ts (composite
scorer section, three-signal variant). -/
structure ScoringWeights (α : Type) where
  bpc : α
  perplexity : α
  bert : α
deriving DecidableEq, Repr

/-- `ScoringConfig` from the composite scorer. -/
structure ScoringConfig (α : Type) where
  weights : ScoringWeights α
  confidenceThreshold : α
  inconclusiveThreshold : α
deriving DecidableEq, Repr

/-- `DEFAULT_WEIGHTS` of the composite scorer: bpc 0.2, perplexity 0.4,
bert 0.4. -/
def DEFAULT_WEIGHTS (α : Type) [LinearOrderedField α] : ScoringWeights α :=
  { bpc := 2/10, perplexity := 4/10, bert := 4/10 }

/-- `DEFAULT_CONFIG` of the composite scorer: default weights,
confidenceThreshold 0.6, inconclusiveThreshold 0.3. -/
def SCORING_DEFAULT_CONFIG (α : Type) [LinearOrderedField α] : ScoringConfig α :=
  { weights := DEFAULT_WEIGHTS α, confidenceThreshold := 6/10,
    inconclusiveThreshold := 3/10 }

/-- JS `(confidence || 0)`: an absent confidence reads as `0`
(a present `0` also reads as `0`, which coincides). -/
def confD {α : Type} [LinearOrderedField α] (c : AnalysisPerCommentSummary α) : α :=
  c.confidence.getD 0

/-- The `scores` / `weights` arrays built by
`CompositeScorer.calculateScore` for the ml/context stages, in push
order: the bpc signal if present, then the perplexity signal if present
and the comment's confidence meets the threshold, then the bert signal
under the same gate.  Each entry is `(score, weight)`. -/
def signalArrays {α : Type} [LinearOrderedField α] (cfg : ScoringConfig α)
    (c : AnalysisPerCommentSummary α) : List (α × α) :=
  (match c.bpcScore with
    | some b => [(b, cfg.weights.bpc)]
    | none => []) ++
  (match c.perplexityScore with
    | some p => if cfg.confidenceThreshold ≤ confD c then [(p, cfg.weights.perplexity)] else []
    | none => []) ++
  (match c.bertScore with
    | some b => if cfg.confidenceThreshold ≤ confD c then [(b, cfg.weights.bert)] else []
    | none => [])

/-- `CompositeScorer.calculateScore` (three-signal variant).  At stage
`bpc` with a present bpc sub-score it returns that sub-score; at stages
`ml`/`context` it builds the signal arrays, takes the weighted average
when more than one signal qualified and the total weight is positive,
and otherwise falls back to `scores[0] || 0`; any other shape yields 0. -/
def calculateScore {α : Type} [LinearOrderedField α] (cfg : ScoringConfig α)
    (c : AnalysisPerCommentSummary α) : α :=
  if c.stage = Stage.bpc ∧ c.bpcScore.isSome then
    c.bpcScore.getD 0
  else if c.stage = Stage.ml ∨ c.stage = Stage.context then
    let sw := signalArrays cfg c
    if 1 < sw.length then
      let totalWeight := (sw.map Prod.snd).sum
      if 0 < totalWeight then
        (sw.map (fun p => p.1 * p.2)).sum / totalWeight
      else
        ((sw.head?).map Prod.fst).getD 0
    else
      ((sw.head?).map Prod.fst).getD 0
  else
    0

/-- `CompositeScorer.needsFurtherAnalysis`: at stage `bpc` with a
present bpc sub-score, true iff that sub-score lies within
`[inconclusiveThreshold, 1 - inconclusiveThreshold]`; else at stage `ml`
with confidence (defaulted to 0) below `confidenceThreshold`, true;
otherwise false. -/
def needsFurtherAnalysis {α : Type} [LinearOrderedField α] (cfg : ScoringConfig α)
    (c : AnalysisPerCommentSummary α) : Bool :=
  if c.stage = Stage.bpc ∧ c.bpcScore.isSome then
    decide (cfg.inconclusiveThreshold ≤ c.bpcScore.getD 0 ∧
      c.bpcScore.getD 0 ≤ 1 - cfg.inconclusiveThreshold)
  else if c.stage = Stage.ml ∧ confD c < cfg.confidenceThreshold then
    true
  else
    false

/-- Result record of `CompositeScorer.calculateUserScore`. -/
structure UserScoreResult (α : Type) where
  userScore : α
  confidence : α
  bpcAnalyzed : ℕ
  mlAnalyzed : ℕ
  contextAnalyzed : ℕ
  averageBPC : α
  averagePerplexity : α
  averageBert : α
deriving DecidableEq, Repr

/-- Average of the present values of one optional sub-score over a list
of comments, mirroring `reduce(...)/count || 0`: the empty case is JS
`NaN || 0 = 0`, matching the `x / 0 = 0` convention here. -/
def avgOf {α : Type} [LinearOrderedField α] (f : AnalysisPerCommentSummary α → Option α)
    (l : List (AnalysisPerCommentSummary α)) : α :=
  (l.filterMap f).sum / ((l.countP (fun c => (f c).isSome) : ℕ) : α)

/-- `CompositeScorer.calculateUserScore`: filters to comments with
`score > 0`; on the empty filter returns all zeros; otherwise the mean
of the composite scores, the per-stage counts, the per-signal averages,
and `min 1 ((bpc·0.3 + ml·0.7 + context·1.0) / total)` as confidence. -/
def calculateUserScore {α : Type} [LinearOrderedField α]
    (comments : List (AnalysisPerCommentSummary α)) : UserScoreResult α :=
  let validComments := comments.filter (fun c => decide (0 < c.score))
  if validComments.length = 0 then
    { userScore := 0, confidence := 0, bpcAnalyzed := 0, mlAnalyzed := 0,
      contextAnalyzed := 0, averageBPC := 0, averagePerplexity := 0, averageBert := 0 }
  else
    let bpcAnalyzed := validComments.countP (fun c => c.stage = Stage.bpc)
    let mlAnalyzed := validComments.countP (fun c => c.stage = Stage.ml)
    let contextAnalyzed := validComments.countP (fun c => c.stage = Stage.context)
    let userScore := (validComments.map (fun c => c.score)).sum / (validComments.length : α)
    let confidence :=
      min 1 (((bpcAnalyzed : α) * (3/10) + (mlAnalyzed : α) * (7/10) +
        (contextAnalyzed : α) * 1) / (validComments.length : α))
    { userScore := userScore, confidence := confidence,
      bpcAnalyzed := bpcAnalyzed, mlAnalyzed := mlAnalyzed,
      contextAnalyzed := contextAnalyzed,
      averageBPC := avgOf (fun c => c.bpcScore) validComments,
      averagePerplexity := avgOf (fun c => c.perplexityScore) validComments,
      averageBert := avgOf (fun c => c.bertScore) validComments }

/-- `BPCConfig` from src/worker/src/util/bpc-analyzer.ts. -/
structure BPCConfig (α : Type) where
  botThreshold : α
  humanThreshold : α
  minLength : ℕ
deriving DecidableEq, Repr

/-- `DEFAULT_CONFIG` of the BPC analyzer: botThreshold 1.5,
humanThreshold 2.5, minLength 15. -/
def BPC_DEFAULT_CONFIG (α : Type) [LinearOrderedField α] : BPCConfig α :=
  { botThreshold := 3/2, humanThreshold := 5/2, minLength := 15 }

/-- `BPC_NORMALIZATION` constants: minBPC 0.5, maxBPC 5.0,
botRange [0.5, 1.5], humanRange [2.0, 5.0]. -/
structure BPCNormalization (α : Type) where
  minBPC : α
  maxBPC : α
  botRange0 : α
  botRange1 : α
  humanRange0 : α
  humanRange1 : α

/-- The concrete `BPC_NORMALIZATION` record. -/
def BPC_NORMALIZATION (α : Type) [LinearOrderedField α] : BPCNormalization α :=
  { minBPC := 1/2, maxBPC := 5, botRange0 := 1/2, botRange1 := 3/2,
    humanRange0 := 2, humanRange1 := 5 }

/-- `normalizeBPCScore`: three-segment piecewise-linear map of a raw BPC
value into [0,1] (bot range to 0.8..1.0, inconclusive to 0.8..0.2,
human range to 0.2..0.0); non-positive input yields 0. -/
def normalizeBPCScore {α : Type} [LinearOrderedField α] (rawBPC : α) : α :=
  let nz := BPC_NORMALIZATION α
  if rawBPC ≤ 0 then 0
  else
    let clampedBPC := max nz.minBPC (min nz.maxBPC rawBPC)
    if clampedBPC ≤ nz.botRange1 then
      let botRange := nz.botRange1 - nz.botRange0
      let position := (clampedBPC - nz.botRange0) / botRange
      8/10 + 2/10 * position
    else if clampedBPC ≤ nz.humanRange0 then
      let inconclusiveRange := nz.humanRange0 - nz.botRange1
      let position := (clampedBPC - nz.botRange1) / inconclusiveRange
      2/10 + 6/10 * (1 - position)
    else
      let humanRange := nz.maxBPC - nz.humanRange0
      let position := min 1 ((clampedBPC - nz.humanRange0) / humanRange)
      2/10 * (1 - position)

/-- JS `\s` for the characters that occur in this development; used by
the `replace(/\s+/g, ' ')` / `trim()` normalization of `calculateBPC`. -/
def jsIsWs (c : Char) : Bool := c.isWhitespace

/-- `text.replace(/\s+/g, ' ')` as a scan: `prevWs` records whether the
previous character was whitespace, so each maximal whitespace run emits
exactly one space. -/
def collapseWsGo (prevWs : Bool) : List Char → List Char
  | [] => []
  | c :: rest =>
    if jsIsWs c then
      if prevWs then collapseWsGo true rest
      else ' ' :: collapseWsGo true rest
    else c :: collapseWsGo false rest

/-- `text.replace(/\s+/g, ' ')`: every maximal run of whitespace
becomes one space. -/
def collapseWs (l : List Char) : List Char :=
  collapseWsGo false l

/-- `.trim()`: drop leading and trailing whitespace. -/
def trimWs (l : List Char) : List Char :=
  ((l.dropWhile jsIsWs).reverse.dropWhile jsIsWs).reverse

/-- The frequency values of the character-frequency map built by
`calculateBPC` (one count per distinct character; iteration order of
the JS `Map` differs from `dedup` order but every consumer sums over
the values, so order is irrelevant). -/
def freqValues (l : List Char) : List ℕ :=
  l.dedup.map (fun c => l.count c)

/-- `calculateBPC`: 0 for texts shorter than the default minLength,
else the Shannon entropy (bits per character) of the
whitespace-normalized text. -/
noncomputable def calculateBPC (text : String) : ℝ :=
  if text.length < (BPC_DEFAULT_CONFIG ℚ).minLength then 0
  else
    let normalized := trimWs (collapseWs text.data)
    let totalChars : ℝ := (normalized.length : ℝ)
    let entropy : ℝ :=
      -(((freqValues normalized).map
          (fun (freq : ℕ) =>
            ((freq : ℝ) / totalChars) * Real.logb 2 ((freq : ℝ) / totalChars))).sum)
    entropy

/-- The `'high' | 'medium' | 'low'` confidence of a `BPCAnalysis`. -/
inductive BPCConfidence where
  | high
  | medium
  | low
deriving DecidableEq, Repr

/-- `BPCAnalysis` record returned by `analyzeBPC`. -/
structure BPCAnalysis (α : Type) where
  bpcScore : α
  normalizedScore : α
  confidence : BPCConfidence
  isBot : Bool
  isHuman : Bool
  isInconclusive : Bool
deriving DecidableEq, Repr

/-- The `isBot` flag computed by `analyzeBPC` from a raw BPC value. -/
def bandIsBot {α : Type} [LinearOrderedField α] (cfg : BPCConfig α) (b : α) : Bool :=
  decide (b < cfg.botThreshold)

/-- The `isHuman` flag computed by `analyzeBPC` from a raw BPC value. -/
def bandIsHuman {α : Type} [LinearOrderedField α] (cfg : BPCConfig α) (b : α) : Bool :=
  decide (cfg.humanThreshold < b)

/-- The `isInconclusive` flag computed by `analyzeBPC`: neither bot nor
human per the configured thresholds. -/
def bandIsInconclusive {α : Type} [LinearOrderedField α] (cfg : BPCConfig α) (b : α) : Bool :=
  !bandIsBot cfg b && !bandIsHuman cfg b

/-- `analyzeBPC`: short texts get a neutral low-confidence inconclusive
result; otherwise raw BPC, its normalization, and the banded
classification with its confidence level. -/
noncomputable def analyzeBPC (cfg : BPCConfig ℝ) (text : String) : BPCAnalysis ℝ :=
  if text.length < cfg.minLength then
    { bpcScore := 0, normalizedScore := 0, confidence := BPCConfidence.low,
      isBot := false, isHuman := false, isInconclusive := true }
  else
    let bpcScore := calculateBPC text
    let normalizedScore := normalizeBPCScore bpcScore
    let isBot := bandIsBot cfg bpcScore
    let isHuman := bandIsHuman cfg bpcScore
    let isInconclusive := !isBot && !isHuman
    let confidence :=
      if isBot || isHuman then BPCConfidence.high
      else if isInconclusive then BPCConfidence.medium
      else BPCConfidence.low
    { bpcScore := bpcScore, normalizedScore := normalizedScore,
      confidence := confidence, isBot := isBot, isHuman := isHuman,
      isInconclusive := isInconclusive }

/-- The numeric confidence `processRequest` stores from a BPC
confidence level: high 1, medium 0.5, low 0. -/
def bpcConfidenceValue {α : Type} [LinearOrderedField α] : BPCConfidence → α
  | BPCConfidence.high => 1
  | BPCConfidence.medium => 1/2
  | BPCConfidence.low => 0

/-- The initial per-comment summary built by `processRequest`
(src/worker/src/index.ts, stage 1): the `score` field is set to the raw
`analysis.bpcScore`, the stage to `bpc`. -/
noncomputable def initialSummary (cfg : BPCConfig ℝ) (id : String) (text : String)
    (numTokens : ℕ) : AnalysisPerCommentSummary ℝ :=
  let bpcResult := analyzeBPC cfg text
  { commentId := id, score := bpcResult.bpcScore, numTokens := numTokens,
    bpcScore := some bpcResult.bpcScore, stage := Stage.bpc,
    confidence := some (bpcConfidenceValue bpcResult.confidence),
    isInconclusive := bpcResult.isInconclusive }

/-- The per-comment ML results consumed by the stage-2 / stage-3 update
blocks of `processRequest`: a perplexity (score, confidence) pair and a
bert (score, confidence) pair. -/
structure MlResults (α : Type) where
  perplexityScore : α
  perplexityConfidence : α
  bertScore : α
  bertConfidence : α
deriving DecidableEq, Repr

/-- Stage-2 update block of `processRequest` (src/worker/src/index.ts):
when both the perplexity and the bert result for the comment were found,
store both sub-scores, promote the stage to `ml`, set confidence to the
max of the two confidences, and recompute the composite score on the
updated record; otherwise leave the record unchanged. -/
def stage2Update {α : Type} [LinearOrderedField α] (cfg : ScoringConfig α)
    (res : Option (MlResults α)) (c : AnalysisPerCommentSummary α) :
    AnalysisPerCommentSummary α :=
  match res with
  | none => c
  | some r =>
    let c1 := { c with
      perplexityScore := some r.perplexityScore,
      bertScore := some r.bertScore, stage := Stage.ml,
      confidence := some (max r.perplexityConfidence r.bertConfidence) }
    { c1 with score := calculateScore cfg c1 }

/-- Stage-3 update block of `processRequest`: when parent context was
resolved and the combined text re-scored, store both sub-scores, promote
the stage to `context`, mark `usedParentContext`, set confidence to the
max of the two confidences, and recompute the composite score; a missing
parent context or a thrown error leaves the record unchanged. -/
def stage3Update {α : Type} [LinearOrderedField α] (cfg : ScoringConfig α)
    (res : Option (MlResults α)) (c : AnalysisPerCommentSummary α) :
    AnalysisPerCommentSummary α :=
  match res with
  | none => c
  | some r =>
    let c1 := { c with
      perplexityScore := some r.perplexityScore,
      bertScore := some r.bertScore, stage := Stage.context,
      usedParentContext := true,
      confidence := some (max r.perplexityConfidence r.bertConfidence) }
    { c1 with score := calculateScore cfg c1 }

/-- The stage-2 pass of `processRequest` for one comment: the update
runs exactly on the comments selected by `needsFurtherAnalysis`. -/
def itemStage2 {α : Type} [LinearOrderedField α] (cfg : ScoringConfig α)
    (mlRes : Option (MlResults α)) (c : AnalysisPerCommentSummary α) :
    AnalysisPerCommentSummary α :=
  if needsFurtherAnalysis cfg c then stage2Update cfg mlRes c else c

/-- The stage-3 pass of `processRequest` for one comment: the update
runs exactly on the comments still selected by `needsFurtherAnalysis`
after stage 2. -/
def itemStage3 {α : Type} [LinearOrderedField α] (cfg : ScoringConfig α)
    (ctxRes : Option (MlResults α)) (c : AnalysisPerCommentSummary α) :
    AnalysisPerCommentSummary α :=
  if needsFurtherAnalysis cfg c then stage3Update cfg ctxRes c else c

/-- Order of the pipeline stages: bpc before ml before context. -/
def stageRank : Stage → ℕ
  | Stage.bpc => 0
  | Stage.ml => 1
  | Stage.context => 2

/-- One outcome of a `fetch` attempt inside `HuggingFaceClient.request`
(src/worker/src/ml/ai-detector.ts, huggingface-client section): a
successful JSON payload, HTTP 429, HTTP 503, any other non-ok HTTP
status with its status text and error body, or a thrown network error /
timeout abort. -/
inductive HFOutcome (α : Type) where
  | ok (data : α)
  | rate429
  | loading503
  | httpErr (status : ℕ) (statusText : String) (body : String)
  | netErr (msg : String)
deriving DecidableEq, Repr

/-- The message of the error thrown for a non-ok, non-429/503 HTTP
response. -/
def httpErrMsg (status : ℕ) (statusText body : String) : String :=
  "HuggingFace API error: " ++ toString status ++ " " ++ statusText ++ " - " ++ body

/-- What a run of `HuggingFaceClient.request` produced: the
success/failure envelope, how many `fetch` calls were made, and the
backoff delays (ms) slept between attempts. -/
structure HFResult (α : Type) where
  result : Except String α
  calls : ℕ
  delays : List ℕ
deriving Repr

/-- The retry loop of `HuggingFaceClient.request`, indexed by the number
of remaining attempts (`remaining + attempt = maxRetries`): 429 sleeps
`2^attempt * 1000` ms and retries; 503 sleeps `2^attempt * 2000` ms and
retries; a non-ok status throws, which the catch records as the last
error and retries after `2^attempt * 1000` ms unless this was the final
attempt; a network error / abort is caught the same way; a successful
response returns immediately.  When attempts run out the envelope is a
failure carrying the last recorded error message, or
`Max retries exceeded` when none was recorded. -/
def hfRequestGo {α : Type} (attempts : ℕ → HFOutcome α) :
    ℕ → ℕ → Option String → ℕ → List ℕ → HFResult α
  | 0, _, lastError, calls, delays =>
    { result := Except.error (lastError.getD "Max retries exceeded"),
      calls := calls, delays := delays }
  | remaining + 1, attempt, lastError, calls, delays =>
    match attempts attempt with
    | HFOutcome.ok d => { result := Except.ok d, calls := calls + 1, delays := delays }
    | HFOutcome.rate429 =>
      hfRequestGo attempts remaining (attempt + 1) lastError (calls + 1)
        (delays ++ [2 ^ attempt * 1000])
    | HFOutcome.loading503 =>
      hfRequestGo attempts remaining (attempt + 1) lastError (calls + 1)
        (delays ++ [2 ^ attempt * 2000])
    | HFOutcome.httpErr s st b =>
      hfRequestGo attempts remaining (attempt + 1) (some (httpErrMsg s st b)) (calls + 1)
        (delays ++ if remaining = 0 then [] else [2 ^ attempt * 1000])
    | HFOutcome.netErr m =>
      hfRequestGo attempts remaining (attempt + 1) (some m) (calls + 1)
        (delays ++ if remaining = 0 then [] else [2 ^ attempt * 1000])

/-- `HuggingFaceClient.request` over an oracle giving each attempt's
outcome; `maxRetries` defaults to 3 in the client. -/
def hfRequest {α : Type} (attempts : ℕ → HFOutcome α) (maxRetries : ℕ) : HFResult α :=
  hfRequestGo attempts maxRetries 0 none 0 []

/-- One settled promise of a `Promise.allSettled` fan-out. -/
inductive Settled (β : Type) where
  | fulfilled (value : β)
  | rejected (reason : String)
deriving DecidableEq, Repr

/-- `BertScore` from src/worker/src/lib/types.ts. -/
structure BertScore (α : Type) where
  score : α
  confidence : α
  label : String
  rawScore : α
deriving DecidableEq, Repr

/-- `PerplexityScore` from src/unnamed/part_007. -/
structure PerplexityScore (α : Type) where
  score : α
  confidence : α
  rawPerplexity : α
deriving DecidableEq, Repr

/-- The neutral fallback `BertClassifier.classifyTexts` substitutes for
a rejected item. -/
def neutralBertScore (α : Type) [LinearOrderedField α] : BertScore α :=
  { score := 0, confidence := 0, label := "Unknown", rawScore := 0 }

/-- The neutral fallback `PerplexityScorer.scoreTexts` substitutes for a
rejected item. -/
def neutralPerplexityScore (α : Type) [LinearOrderedField α] : PerplexityScore α :=
  { score := 0, confidence := 0, rawPerplexity := 0 }

/-- `BertClassifier.classifyTexts`: fans out one `classifyText` call per
`(id, text)` item via `Promise.allSettled` (`settled i` is how item
`i`'s call settled) and collects per-item outcomes — the fulfilled value
for a fulfilled call, `(texts[index].id, neutral)` for a rejected one. -/
def classifyTexts {α : Type} [LinearOrderedField α] (texts : List (String × String))
    (settled : ℕ → Settled (BertScore α)) : List (String × BertScore α) :=
  texts.enum.map (fun p =>
    match settled p.1 with
    | Settled.fulfilled v => (p.2.1, v)
    | Settled.rejected _ => (p.2.1, neutralBertScore α))

/-- `PerplexityScorer.scoreTexts`: the same `allSettled` collection
shape with the perplexity neutral fallback. -/
def scoreTexts {α : Type} [LinearOrderedField α] (texts : List (String × String))
    (settled : ℕ → Settled (PerplexityScore α)) : List (String × PerplexityScore α) :=
  texts.enum.map (fun p =>
    match settled p.1 with
    | Settled.fulfilled v => (p.2.1, v)
    | Settled.rejected _ => (p.2.1, neutralPerplexityScore α))

/-- Does the character list start with the pattern. -/
def charsStartWith : List Char → List Char → Bool
  | [], _ => true
  | _ :: _, [] => false
  | a :: as, b :: bs => a == b && charsStartWith as bs

/-- Does the character list contain the pattern as a contiguous run. -/
def charsContain (pat : List Char) : List Char → Bool
  | [] => charsStartWith pat []
  | c :: rest => charsStartWith pat (c :: rest) || charsContain pat rest

/-- JS `label.toLowerCase().includes(pat)` for an already-lowercase
pattern (lower-casing character-wise, which agrees for the ASCII model
labels). -/
def labelContainsLower (label : String) (pat : String) : Bool :=
  charsContain pat.data (label.data.map Char.toLower)

/-- The AI-label predicate of `AIDetector.processClassificationResult`:
the lowercased label contains `ai`, `generated`, `fake` or `synthetic`. -/
def matchesAiLabel (label : String) : Bool :=
  labelContainsLower label "ai" || labelContainsLower label "generated" ||
    labelContainsLower label "fake" || labelContainsLower label "synthetic"

/-- The human-label predicate of `processClassificationResult`: the
lowercased label contains `human`, `real`, `authentic` or `original`. -/
def matchesHumanLabel (label : String) : Bool :=
  labelContainsLower label "human" || labelContainsLower label "real" ||
    labelContainsLower label "authentic" || labelContainsLower label "original"

/-- `AIDetectorScore` from src/worker/src/lib/types.ts. -/
structure AIDetectorScore (α : Type) where
  score : α
  confidence : α
  label : String
  rawScore : α
deriving DecidableEq, Repr

/-- `AIDetector.processClassificationResult`
(src/worker/src/ml/ai-detector.ts): the first AI-matching and first
human-matching label entries give `aiScore` / `humanScore` (defaulting
to 0 when absent); the normalized score is `aiScore` when it exceeds
`humanScore` and `1 - humanScore` otherwise; the confidence is
`|normalized - 0.5| * 2`; the label compares the normalized score to the
configured threshold (default 0.5). -/
def processClassificationResult {α : Type} [LinearOrderedField α] (threshold : α)
    (data : List (String × α)) : AIDetectorScore α :=
  let aiLabel := data.find? (fun item => matchesAiLabel item.1)
  let humanLabel := data.find? (fun item => matchesHumanLabel item.1)
  let aiScore := (aiLabel.map Prod.snd).getD 0
  let humanScore := (humanLabel.map Prod.snd).getD 0
  let normalizedScore := if humanScore < aiScore then aiScore else 1 - humanScore
  let confidence := |normalizedScore - 1/2| * 2
  let label := if threshold < normalizedScore then "AI" else "Human"
  { score := normalizedScore, confidence := confidence, label := label,
    rawScore := aiScore }

/-- The parent reference parsed from a fetched comment's `parent_id` by
`fetchParentContext` (src/worker/src/util/tokenizer.ts, reddit domain
section): a `t1_`-prefixed id is another comment, a `t3_`-prefixed id is
a post. -/
inductive ParentRef where
  | commentRef (pid : String)
  | postRef (pid : String)
deriving DecidableEq, Repr

/-- The content-source collaborator as `fetchParentContext` sees it.
`info id` is the parsed parent reference of comment `id` — `none`
collapses every path on which the code returns `null` before recursing
(fetch failure, missing comment, absent or differently prefixed
`parent_id`).  `postText pid` is `selftext || title || ''` of post `pid`
when the post fetch succeeds, `none` when it fails. -/
structure CtxSource where
  info : String → Option ParentRef
  postText : String → Option String

/-- `fetchParentContext` with explicit fuel standing for the call-stack
budget: the code recurses unconditionally on a `t1_` parent, returns the
post text on a `t3_` parent, and returns `null` otherwise.  The outer
`none` means the fuel ran out, i.e. the recursion reached that depth
without returning; the code itself has no depth bound. -/
def fetchParentContext (src : CtxSource) : ℕ → String → Option (Option String)
  | 0, _ => none
  | fuel + 1, commentId =>
    match src.info commentId with
    | some (ParentRef.commentRef parentCommentId) =>
      fetchParentContext src fuel parentCommentId
    | some (ParentRef.postRef postId) => some (src.postText postId)
    | none => some none

/-- A content source whose single comment `a` reports itself as its own
`t1_` parent — a cyclic parent chain. -/
def cyclicCtxSource : CtxSource :=
  { info := fun _ => some (ParentRef.commentRef "a"), postText := fun _ => none }

/-- The ids on which the parent-chain walk reaches a non-`t1_` outcome
in finitely many steps (the chains the code terminates on). -/
inductive ChainResolves (src : CtxSource) : String → Prop where
  | stop (id : String) :
      (∀ pid, src.info id ≠ some (ParentRef.commentRef pid)) → ChainResolves src id
  | step (id pid : String) :
      src.info id = some (ParentRef.commentRef pid) → ChainResolves src pid →
      ChainResolves src id

/-- `AnalysisRequestData.status` values
(src/worker/src/lib/types.ts). -/
inductive ReqStatus where
  | queued
  | fetching
  | done
  | error
deriving DecidableEq, Repr

/-- The request document plus the result collection, the shared state
`processRequest` reads and writes. -/
structure QueueStore where
  status : ReqStatus
  resultWrites : ℕ
deriving DecidableEq, Repr

/-- Program counter of one `processRequest` invocation as coded: it
`get`s a snapshot, checks `status !== 'queued'` on that snapshot, then
`update`s the status to `fetching` as a separate write, then runs the
pipeline and writes the result document and the terminal status. -/
inductive GuardProc where
  | entry
  | checked (sawQueued : Bool)
  | processing
  | halted
deriving DecidableEq, Repr

/-- One atomic step of a read-then-write `processRequest` invocation:
the snapshot read, the `fetching` write (taken only when the snapshot
said `queued`), and the terminal result-write step are separate store
accesses. -/
def guardStep : GuardProc → QueueStore → GuardProc × QueueStore
  | GuardProc.entry, st => (GuardProc.checked (st.status = ReqStatus.queued), st)
  | GuardProc.checked true, st =>
    (GuardProc.processing, { st with status := ReqStatus.fetching })
  | GuardProc.checked false, st => (GuardProc.halted, st)
  | GuardProc.processing, st =>
    (GuardProc.halted, { status := ReqStatus.done, resultWrites := st.resultWrites + 1 })
  | GuardProc.halted, st => (GuardProc.halted, st)

/-- Program counter of an invocation whose guard is an atomic
compare-and-set, the shape the spec requires. -/
inductive CasProc where
  | entry
  | processing
  | halted
deriving DecidableEq, Repr

/-- One atomic step of a compare-and-set invocation: the guard check and
the transition to `fetching` are a single store access. -/
def casStep : CasProc → QueueStore → CasProc × QueueStore
  | CasProc.entry, st =>
    if st.status = ReqStatus.queued then
      (CasProc.processing, { st with status := ReqStatus.fetching })
    else
      (CasProc.halted, st)
  | CasProc.processing, st =>
    (CasProc.halted, { status := ReqStatus.done, resultWrites := st.resultWrites + 1 })
  | CasProc.halted, st => (CasProc.halted, st)

/-- Two concurrent invocations over the shared store. -/
structure TwoProcState (π : Type) where
  p1 : π
  p2 : π
  store : QueueStore
deriving DecidableEq, Repr

/-- One interleaving step: `true` steps the first invocation against
the shared store, `false` the second. -/
def sysStep {π : Type} (step : π → QueueStore → π × QueueStore)
    (s : TwoProcState π) (pick : Bool) : TwoProcState π :=
  if pick then
    let r := step s.p1 s.store
    { s with p1 := r.1, store := r.2 }
  else
    let r := step s.p2 s.store
    { s with p2 := r.1, store := r.2 }

/-- Run two invocations under a schedule; the store starts `queued`
with no result written. -/
def runSchedule {π : Type} (step : π → QueueStore → π × QueueStore) (start : π)
    (sched : List Bool) : TwoProcState π :=
  sched.foldl (sysStep step)
    { p1 := start, p2 := start,
      store := { status := ReqStatus.queued, resultWrites := 0 } }

/-- 1 while a compare-and-set invocation holds the right to write the
result, 0 otherwise. -/
def casTokens : CasProc → ℕ
  | CasProc.processing => 1
  | _ => 0

/-- Invariant of the compare-and-set system: result writes plus
outstanding write rights is 0 while the store is still `queued` and
exactly 1 from the moment it left `queued`. -/
def CasInv (s : TwoProcState CasProc) : Prop :=
  (s.store.status = ReqStatus.queued ∧
    s.store.resultWrites + casTokens s.p1 + casTokens s.p2 = 0) ∨
  (s.store.status ≠ ReqStatus.queued ∧
    s.store.resultWrites + casTokens s.p1 + casTokens s.p2 = 1)

/-- The three per-item signal sources of the composite scorer. -/
inductive SignalSource where
  | bpcSig
  | perplexitySig
  | bertSig
deriving DecidableEq, Repr

/-- The stored sub-score of a signal source on a comment. -/
def signalValue {α : Type} (c : AnalysisPerCommentSummary α) : SignalSource → Option α
  | SignalSource.bpcSig => c.bpcScore
  | SignalSource.perplexitySig => c.perplexityScore
  | SignalSource.bertSig => c.bertScore

/-- The configured weight of a signal source. -/
def signalWeight {α : Type} (cfg : ScoringConfig α) : SignalSource → α
  | SignalSource.bpcSig => cfg.weights.bpc
  | SignalSource.perplexitySig => cfg.weights.perplexity
  | SignalSource.bertSig => cfg.weights.bert

/-- Stated from the claim's words: a signal qualifies when it is present
and is either the entropy signal (always admitted) or a remote signal
whose confidence meets the configured threshold. -/
def signalQualifies {α : Type} [LinearOrderedField α] (cfg : ScoringConfig α)
    (c : AnalysisPerCommentSummary α) (s : SignalSource) : Bool :=
  (signalValue c s).isSome &&
    (s = SignalSource.bpcSig || cfg.confidenceThreshold ≤ confD c)

/-- The qualifying signal sources, in the fixed bpc, perplexity, bert
order. -/
def qualifyingSignals {α : Type} [LinearOrderedField α] (cfg : ScoringConfig α)
    (c : AnalysisPerCommentSummary α) : List SignalSource :=
  [SignalSource.bpcSig, SignalSource.perplexitySig, SignalSource.bertSig].filter
    (signalQualifies cfg c)

/-- Stated from the claim's words, for comparison with `calculateScore`:
the weighted average over the qualifying signals, the single qualifying
signal's value when exactly one qualifies, and 0 when none qualifies. -/
def claimCombine {α : Type} [LinearOrderedField α] (cfg : ScoringConfig α)
    (c : AnalysisPerCommentSummary α) : α :=
  match qualifyingSignals cfg c with
  | [] => 0
  | [s] => (signalValue c s).getD 0
  | l =>
    (l.map (fun s => ((signalValue c s).getD 0) * signalWeight cfg s)).sum /
      (l.map (signalWeight cfg)).sum

/-- Stated from the claim's words, for comparison with
`calculateUserScore`: the unweighted mean of the composite scores of
the items whose score is strictly positive (`x / 0 = 0` makes the
no-qualifying-item case 0). -/
def claimUserScore {α : Type} [LinearOrderedField α]
    (comments : List (AnalysisPerCommentSummary α)) : α :=
  let qualifying := comments.filter (fun c => decide (0 < c.score))
  (qualifying.map (fun c => c.score)).sum / (qualifying.length : α)

/-- Stated from the claim's words, for comparison with
`calculateUserScore`: confidence is 0.3 per entropy-stage item plus 0.7
per classifier-stage item plus 1.0 per context-stage item, divided by
the qualifying item count and clamped to at most 1. -/
def claimConfidence {α : Type} [LinearOrderedField α]
    (comments : List (AnalysisPerCommentSummary α)) : α :=
  let qualifying := comments.filter (fun c => decide (0 < c.score))
  min 1
    ((((qualifying.countP (fun c => c.stage = Stage.bpc)) : α) * (3/10) +
        ((qualifying.countP (fun c => c.stage = Stage.ml)) : α) * (7/10) +
        ((qualifying.countP (fun c => c.stage = Stage.context)) : α) * 1) /
      (qualifying.length : α))

/-- The all-distinct 16-character text used as the C1 failing input: its
character distribution is uniform over 16 symbols, so its Shannon
entropy is exactly 4 bits per character. -/
def exBotText : String := "abcdefghijklmnop"

/-- A content source with the acyclic chain b → c → post p, used to
instantiate the termination direction of the C9 analysis. -/
def twoStepCtxSource : CtxSource :=
  { info := fun id =>
      if id = "b" then some (ParentRef.commentRef "c")
      else if id = "c" then some (ParentRef.postRef "p")
      else none,
    postText := fun _ => some "post body" }

/-- A concrete settle oracle for the bert batch: item 0's call
fulfilled, every other item's call rejected after its retries. -/
def exBertSettle : ℕ → Settled (BertScore ℚ) := fun n =>
  if n = 0 then Settled.fulfilled { score := 3/5, confidence := 1/5, label := "AI", rawScore := 3/5 }
  else Settled.rejected "boom"

/-- A concrete settle oracle for the perplexity batch: item 0 fulfilled,
every other item rejected. -/
def exPerplexitySettle : ℕ → Settled (PerplexityScore ℚ) := fun n =>
  if n = 0 then Settled.fulfilled { score := 2/5, confidence := 3/10, rawPerplexity := 12 }
  else Settled.rejected "boom"

/-- Helper: the compare-and-set invariant is preserved by every
interleaving step. -/
theorem casInv_sysStep (s : TwoProcState CasProc) (pick : Bool)
    (h : CasInv s) : CasInv (sysStep casStep s pick) := by
  rcases s with ⟨p1, p2, status, writes⟩
  cases pick <;> cases p1 <;> cases p2 <;> cases status <;>
    simp_all [CasInv, sysStep, casStep, casTokens]

/-- Helper: the compare-and-set invariant holds after any schedule. -/
theorem casInv_run (sched : List Bool) :
    CasInv (runSchedule casStep CasProc.entry sched) := by
  have hgen : ∀ (l : List Bool) (s : TwoProcState CasProc), CasInv s →
      CasInv (l.foldl (sysStep casStep) s) := by
    intro l
    induction l with
    | nil => intro s h; exact h
    | cons pick rest ih => intro s h; exact ih _ (casInv_sysStep s pick h)
  exact hgen sched _ (Or.inl ⟨rfl, rfl⟩)

/-- C4: the claim requires that two concurrent `processRequest`
invocations on one queued id produce exactly one terminal transition and
one result write, which needs the guard check and the `fetching`
transition to be one atomic store access.  The code's guard is a
snapshot read followed by a separate update: under the interleaving
read₁ read₂ write₁ finish₁ write₂ finish₂ both invocations pass the
guard and the result document is written twice, while the atomic
compare-and-set variant writes it exactly once on the same schedule and
at most once on every schedule. -/
theorem c4_read_then_write_guard_double_writes :
    (runSchedule guardStep GuardProc.entry
      [true, false, true, true, false, false]).store.resultWrites = 2 ∧
    (runSchedule casStep CasProc.entry
      [true, false, true, true, false, false]).store.resultWrites = 1 ∧
    (∀ sched : List Bool,
      (runSchedule casStep CasProc.entry sched).store.resultWrites ≤ 1) := by
  refine ⟨by decide, by decide, ?_⟩
  intro sched
  rcases casInv_run sched with ⟨_, h⟩ | ⟨_, h⟩ <;> omega

/-- C2 counterexample: a stage-`bpc` summary whose stored bpc score is 2
sits strictly inside the inconclusive entropy band (1.5 < 2 < 2.5, so
`analyzeBPC` flags it inconclusive), yet `needsFurtherAnalysis` returns
false because it tests the stored score against
[inconclusiveThreshold, 1 - inconclusiveThreshold] = [0.3, 0.7] instead
of the entropy band. -/
theorem c2_inconclusive_band_not_escalated :
    bandIsInconclusive (BPC_DEFAULT_CONFIG ℚ) 2 = true ∧
    needsFurtherAnalysis (SCORING_DEFAULT_CONFIG ℚ)
      { commentId := "z", score := 2, numTokens := 5, bpcScore := some 2,
        stage := Stage.bpc, confidence := some (1/2), isInconclusive := true } = false := by
  constructor
  · simp only [bandIsInconclusive, bandIsBot, bandIsHuman, BPC_DEFAULT_CONFIG]
    norm_num
  · simp only [needsFurtherAnalysis, SCORING_DEFAULT_CONFIG, confD]
    norm_num

/-- C2 amended: `needsFurtherAnalysis` is true at stage `bpc` iff the
stored bpc sub-score is present and lies within
[inconclusiveThreshold, 1 - inconclusiveThreshold] (not iff the entropy
band is inconclusive); true at stage `ml` iff the confidence (absent
read as 0) is below the configured confidence threshold; and false at
stage `context`. -/
theorem c2_needs_escalation_characterization {α : Type} [LinearOrderedField α]
    (cfg : ScoringConfig α) (c : AnalysisPerCommentSummary α) :
    (∀ b : α, c.stage = Stage.bpc → c.bpcScore = some b →
      (needsFurtherAnalysis cfg c = true ↔
        cfg.inconclusiveThreshold ≤ b ∧ b ≤ 1 - cfg.inconclusiveThreshold)) ∧
    (c.stage = Stage.bpc → c.bpcScore = none → needsFurtherAnalysis cfg c = false) ∧
    (c.stage = Stage.ml →
      (needsFurtherAnalysis cfg c = true ↔ confD c < cfg.confidenceThreshold)) ∧
    (c.stage = Stage.context → needsFurtherAnalysis cfg c = false) := by
  refine ⟨?_, ?_, ?_, ?_⟩
  · intro b hstage hsome
    simp [needsFurtherAnalysis, hstage, hsome]
  · intro hstage hnone
    simp [needsFurtherAnalysis, hstage, hnone]
  · intro hstage
    by_cases hc : confD c < cfg.confidenceThreshold <;>
      simp [needsFurtherAnalysis, hstage, hc]
  · intro hstage
    simp [needsFurtherAnalysis, hstage]

/-- C2 witness: the amended characterization applied to a concrete
context-stage summary. -/
theorem c2_needs_escalation_characterization_witness :
    needsFurtherAnalysis (SCORING_DEFAULT_CONFIG ℚ)
      { commentId := "w", score := 1/2, numTokens := 5, bpcScore := some (1/2),
        stage := Stage.context, confidence := some 1 } = false :=
  (c2_needs_escalation_characterization (SCORING_DEFAULT_CONFIG ℚ) _).2.2.2 rfl

/-- C9 counterexample: on a content source reporting a cyclic parent
chain, the walk has not returned after 10 recursive steps (the claimed
hard limit) nor after 50 — there is no depth bound in the code. -/
theorem c9_cycle_exceeds_any_small_depth :
    fetchParentContext cyclicCtxSource 10 "a" = none ∧
    fetchParentContext cyclicCtxSource 50 "a" = none :=
  ⟨by decide, by decide⟩

/-- C9 amended: `fetchParentContext` has no hard recursion-depth limit.
It terminates on exactly the parent chains that reach a non-comment
parent in finitely many steps (one recursive call per `t1_` link), and
on a cyclic parent chain it never returns, whatever call-stack budget it
is given. -/
theorem c9_walk_termination_characterization :
    (∀ (src : CtxSource) (id : String), ChainResolves src id →
      ∃ (fuel : ℕ) (r : Option String), fetchParentContext src fuel id = some r) ∧
    (∀ fuel : ℕ, fetchParentContext cyclicCtxSource fuel "a" = none) := by
  constructor
  · intro src id h
    induction h with
    | stop id hstop =>
      cases hinfo : src.info id with
      | none => exact ⟨1, none, by simp [fetchParentContext, hinfo]⟩
      | some ref =>
        cases ref with
        | commentRef pid => exact absurd hinfo (hstop pid)
        | postRef pid =>
          exact ⟨1, src.postText pid, by simp [fetchParentContext, hinfo]⟩
    | step id pid hinfo _ ih =>
      obtain ⟨fuel, r, hr⟩ := ih
      exact ⟨fuel + 1, r, by simp [fetchParentContext, hinfo, hr]⟩
  · intro fuel
    induction fuel with
    | zero => rfl
    | succ n ih => simpa [fetchParentContext, cyclicCtxSource] using ih

/-- C9 witness: the termination direction applied to the concrete
two-link chain b → c → post. -/
theorem c9_walk_termination_characterization_witness :
    ∃ (fuel : ℕ) (r : Option String),
      fetchParentContext twoStepCtxSource fuel "b" = some r :=
  c9_walk_termination_characterization.1 twoStepCtxSource "b"
    (ChainResolves.step "b" "c" (by simp [twoStepCtxSource])
      (ChainResolves.stop "c" (fun pid => by simp [twoStepCtxSource])))

/-- C10: when a classification succeeds but no returned label matches an
AI pattern (ai/generated/fake/synthetic) and none matches a human
pattern (human/real/authentic/original), both extracted probabilities
default to 0, so the normalized score is `1 - 0 = 1`, the confidence is
`|1 - 0.5| * 2 = 1`, and the label (default threshold 0.5) is `AI`. -/
theorem c10_unmatched_labels_score_one {α : Type} [LinearOrderedField α]
    (data : List (String × α))
    (hai : ∀ item ∈ data, matchesAiLabel item.1 = false)
    (hhuman : ∀ item ∈ data, matchesHumanLabel item.1 = false) :
    processClassificationResult (1/2 : α) data =
      { score := 1, confidence := 1, label := "AI", rawScore := 0 } := by
  have h1 : data.find? (fun item => matchesAiLabel item.1) = none :=
    List.find?_eq_none.mpr (fun x hx => by simp [hai x hx])
  have h2 : data.find? (fun item => matchesHumanLabel item.1) = none :=
    List.find?_eq_none.mpr (fun x hx => by simp [hhuman x hx])
  simp only [processClassificationResult, h1, h2, Option.map_none, Option.getD_none]
  norm_num
  rw [abs_of_nonneg (by norm_num : (0 : α) ≤ 1/2)]
  norm_num

/-- C10 witness: the theorem applied to the actual label shape of the
configured roberta detector, whose labels are `LABEL_0` / `LABEL_1`. -/
theorem c10_unmatched_labels_score_one_witness :
    processClassificationResult ((1 : ℚ)/2) [("LABEL_0", 9/10), ("LABEL_1", 1/10)] =
      { score := 1, confidence := 1, label := "AI", rawScore := 0 } :=
  c10_unmatched_labels_score_one [("LABEL_0", 9/10), ("LABEL_1", 1/10)]
    (by decide) (by decide)

/-- C8: along the coded execution order of one request, an item's stage
only moves forward.  A summary starts at stage `bpc`; the stage-2 pass
either leaves it or promotes it to `ml`; the stage-3 pass either leaves
it or promotes it to `context`; no pass ever lowers the stage. -/
theorem c8_stage_monotonic {α : Type} [LinearOrderedField α] (cfg : ScoringConfig α)
    (c0 : AnalysisPerCommentSummary α) (mlRes ctxRes : Option (MlResults α))
    (h0 : c0.stage = Stage.bpc) :
    stageRank c0.stage ≤ stageRank (itemStage2 cfg mlRes c0).stage ∧
    stageRank (itemStage2 cfg mlRes c0).stage ≤
      stageRank (itemStage3 cfg ctxRes (itemStage2 cfg mlRes c0)).stage := by
  constructor
  · rw [h0]
    exact Nat.zero_le _
  · by_cases hn : needsFurtherAnalysis cfg (itemStage2 cfg mlRes c0)
    · cases hctx : ctxRes with
      | none => simp [itemStage3, hn, stage3Update]
      | some r =>
        have h2 : (itemStage3 cfg (some r) (itemStage2 cfg mlRes c0)).stage = Stage.context := by
          simp [itemStage3, hn, stage3Update]
        rw [h2]
        cases (itemStage2 cfg mlRes c0).stage <;> simp [stageRank]
    · simp [itemStage3, hn]

/-- C8 witness: the theorem at a concrete bpc-stage summary with both a
stage-2 and a stage-3 result available. -/
theorem c8_stage_monotonic_witness :
    stageRank (⟨"m", 1/2, 2, some (1/2), none, none, Stage.bpc, false, some (1/2), false⟩ :
        AnalysisPerCommentSummary ℚ).stage ≤
      stageRank (itemStage2 (SCORING_DEFAULT_CONFIG ℚ) (some ⟨3/5, 7/10, 2/5, 1/2⟩)
        ⟨"m", 1/2, 2, some (1/2), none, none, Stage.bpc, false, some (1/2), false⟩).stage :=
  (c8_stage_monotonic (SCORING_DEFAULT_CONFIG ℚ)
    ⟨"m", 1/2, 2, some (1/2), none, none, Stage.bpc, false, some (1/2), false⟩
    (some ⟨3/5, 7/10, 2/5, 1/2⟩) (some ⟨3/5, 7/10, 2/5, 1/2⟩) rfl).1

/-- Helper: the `i`-th entry of the bert batch is determined by the
`i`-th input item and how its own call settled. -/
theorem classifyTexts_get? {α : Type} [LinearOrderedField α]
    (texts : List (String × String)) (settled : ℕ → Settled (BertScore α))
    (i : ℕ) (t : String × String) (ht : texts.get? i = some t) :
    (classifyTexts texts settled).get? i =
      some (match settled i with
        | Settled.fulfilled v => (t.1, v)
        | Settled.rejected _ => (t.1, neutralBertScore α)) := by
  simp only [classifyTexts, List.get?_map, List.get?_enum, ht]
  cases h : settled i <;> simp [h]

/-- Helper: the `i`-th entry of the perplexity batch is determined by
the `i`-th input item and how its own call settled. -/
theorem scoreTexts_get? {α : Type} [LinearOrderedField α]
    (texts : List (String × String)) (settled : ℕ → Settled (PerplexityScore α))
    (i : ℕ) (t : String × String) (ht : texts.get? i = some t) :
    (scoreTexts texts settled).get? i =
      some (match settled i with
        | Settled.fulfilled v => (t.1, v)
        | Settled.rejected _ => (t.1, neutralPerplexityScore α)) := by
  simp only [scoreTexts, List.get?_map, List.get?_enum, ht]
  cases h : settled i <;> simp [h]

/-- C6: neither batch aborts on a failed item — each returns one entry
per input item; entry `i` depends only on how item `i`'s own call
settled, so another item's failure cannot change it; a rejected item
gets the neutral zero-score/zero-confidence fallback; and a fulfilled
item's entry equals its result in isolation (the singleton batch of just
that item). -/
theorem c6_batch_partial_failure_isolation {α : Type} [LinearOrderedField α]
    (texts : List (String × String))
    (o o2 : ℕ → Settled (BertScore α)) (po po2 : ℕ → Settled (PerplexityScore α))
    (i : ℕ) (t : String × String) (ht : texts.get? i = some t) :
    (classifyTexts texts o).length = texts.length ∧
    (o i = o2 i → (classifyTexts texts o).get? i = (classifyTexts texts o2).get? i) ∧
    (∀ r, o i = Settled.rejected r →
      (classifyTexts texts o).get? i = some (t.1, neutralBertScore α)) ∧
    (∀ s, o i = Settled.fulfilled s →
      (classifyTexts texts o).get? i = some (t.1, s) ∧
      (classifyTexts [t] (fun _ => o i)).get? 0 = some (t.1, s)) ∧
    (scoreTexts texts po).length = texts.length ∧
    (po i = po2 i → (scoreTexts texts po).get? i = (scoreTexts texts po2).get? i) ∧
    (∀ r, po i = Settled.rejected r →
      (scoreTexts texts po).get? i = some (t.1, neutralPerplexityScore α)) := by
  refine ⟨?_, ?_, ?_, ?_, ?_, ?_, ?_⟩
  · simp [classifyTexts]
  · intro hsame
    rw [classifyTexts_get? texts o i t ht, classifyTexts_get? texts o2 i t ht, hsame]
  · intro r hr
    rw [classifyTexts_get? texts o i t ht, hr]
  · intro s hs
    constructor
    · rw [classifyTexts_get? texts o i t ht, hs]
    · rw [classifyTexts_get? [t] (fun _ => o i) 0 t rfl, hs]
  · simp [scoreTexts]
  · intro hsame
    rw [scoreTexts_get? texts po i t ht, scoreTexts_get? texts po2 i t ht, hsame]
  · intro r hr
    rw [scoreTexts_get? texts po i t ht, hr]

/-- C6 witness: in a two-item batch where item B's call failed after its
retries, item A keeps its classifier result and item B gets the neutral
fallback, for both batch operations. -/
theorem c6_batch_partial_failure_isolation_witness :
    (classifyTexts [("A", "text a"), ("B", "text b")] exBertSettle).get? 1 =
      some ("B", neutralBertScore ℚ) ∧
    (classifyTexts [("A", "text a"), ("B", "text b")] exBertSettle).get? 0 =
      some ("A", { score := 3/5, confidence := 1/5, label := "AI", rawScore := 3/5 }) ∧
    (scoreTexts [("A", "text a"), ("B", "text b")] exPerplexitySettle).get? 1 =
      some ("B", neutralPerplexityScore ℚ) := by
  refine ⟨?_, ?_, ?_⟩
  · exact (c6_batch_partial_failure_isolation [("A", "text a"), ("B", "text b")]
      exBertSettle exBertSettle exPerplexitySettle exPerplexitySettle 1
      ("B", "text b") rfl).2.2.1 "boom" rfl
  · exact ((c6_batch_partial_failure_isolation [("A", "text a"), ("B", "text b")]
      exBertSettle exBertSettle exPerplexitySettle exPerplexitySettle 0
      ("A", "text a") rfl).2.2.2.1
      { score := 3/5, confidence := 1/5, label := "AI", rawScore := 3/5 } rfl).1
  · exact (c6_batch_partial_failure_isolation [("A", "text a"), ("B", "text b")]
      exBertSettle exBertSettle exPerplexitySettle exPerplexitySettle 1
      ("B", "text b") rfl).2.2.2.2.2.2 "boom" rfl

/-- Helper: the (score, weight) arrays `calculateScore` builds are
exactly the qualifying signals of the claim, in the same order, paired
with their stored values and configured weights. -/
theorem signalArrays_eq_map {α : Type} [LinearOrderedField α] (cfg : ScoringConfig α)
    (c : AnalysisPerCommentSummary α) :
    signalArrays cfg c =
      (qualifyingSignals cfg c).map
        (fun s => ((signalValue c s).getD 0, signalWeight cfg s)) := by
  cases hb : c.bpcScore <;> cases hp : c.perplexityScore <;> cases hr : c.bertScore <;>
    by_cases hg : cfg.confidenceThreshold ≤ confD c <;>
      simp [signalArrays, qualifyingSignals, signalQualifies, signalValue, signalWeight,
        hb, hp, hr, hg, List.filter]

/-- C3: with positive configured weights, `calculateScore` returns the
stored entropy signal verbatim at stage `bpc`, and at stages
`ml`/`context` it equals the claim's description: the weighted average
over exactly the qualifying signals (present, and either the entropy
signal or remote with confidence meeting the threshold), the single
qualifying signal's value when exactly one qualifies, and 0 when none
does. -/
theorem c3_calculate_score_matches_claim {α : Type} [LinearOrderedField α]
    (cfg : ScoringConfig α) (c : AnalysisPerCommentSummary α)
    (hwb : 0 < cfg.weights.bpc) (hwp : 0 < cfg.weights.perplexity)
    (hwr : 0 < cfg.weights.bert) :
    (∀ b : α, c.stage = Stage.bpc → c.bpcScore = some b → calculateScore cfg c = b) ∧
    (c.stage = Stage.ml ∨ c.stage = Stage.context →
      calculateScore cfg c = claimCombine cfg c) := by
  have hwpos : ∀ s : SignalSource, 0 < signalWeight cfg s := by
    intro s
    cases s <;> simpa [signalWeight]
  constructor
  · intro b h1 h2
    simp [calculateScore, h1, h2]
  · intro hstage
    have hnotbpc : ¬(c.stage = Stage.bpc ∧ c.bpcScore.isSome = true) := by
      rcases hstage with h | h <;> simp [h]
    rcases hql : qualifyingSignals cfg c with _ | ⟨s1, _ | ⟨s2, rest⟩⟩
    · simp [calculateScore, hnotbpc, hstage, claimCombine, signalArrays_eq_map, hql]
    · simp [calculateScore, hnotbpc, hstage, claimCombine, signalArrays_eq_map, hql]
    · have hlen : 1 < (signalArrays cfg c).length := by
        simp [signalArrays_eq_map, hql]
      have hpos : 0 < ((signalArrays cfg c).map Prod.snd).sum := by
        rw [signalArrays_eq_map, hql]
        refine List.sum_pos _ ?_ (by simp)
        intro x hx
        simp only [List.map_map, List.mem_map] at hx
        obtain ⟨s, _, hs⟩ := hx
        rw [← hs]
        exact hwpos s
      simp only [calculateScore, hnotbpc, if_false, hstage, if_pos, if_true,
        iff_true, or_true, true_or]
      rw [if_pos hlen, if_pos hpos, signalArrays_eq_map, hql]
      simp only [claimCombine, hql, List.map_map]
      rfl

/-- C3 witness: the theorem at the default configuration and a concrete
ml-stage summary with an entropy signal and one confident remote
signal. -/
theorem c3_calculate_score_matches_claim_witness :
    calculateScore (SCORING_DEFAULT_CONFIG ℚ)
      ⟨"x", 0, 3, some (1/2), some (2/5), none, Stage.ml, false, some (7/10), false⟩ =
      claimCombine (SCORING_DEFAULT_CONFIG ℚ)
        ⟨"x", 0, 3, some (1/2), some (2/5), none, Stage.ml, false, some (7/10), false⟩ :=
  (c3_calculate_score_matches_claim (SCORING_DEFAULT_CONFIG ℚ)
    ⟨"x", 0, 3, some (1/2), some (2/5), none, Stage.ml, false, some (7/10), false⟩
    (by norm_num [SCORING_DEFAULT_CONFIG, DEFAULT_WEIGHTS])
    (by norm_num [SCORING_DEFAULT_CONFIG, DEFAULT_WEIGHTS])
    (by norm_num [SCORING_DEFAULT_CONFIG, DEFAULT_WEIGHTS])).2 (Or.inl rfl)

/-- C7: `calculateUserScore` returns as `userScore` the unweighted mean
of the composite scores of the items with strictly positive score, and
as `confidence` the stage-weighted (0.3 / 0.7 / 1.0) count average over
those items, clamped to at most 1; when no item qualifies both are 0. -/
theorem c7_aggregate_matches_claim {α : Type} [LinearOrderedField α]
    (comments : List (AnalysisPerCommentSummary α)) :
    (calculateUserScore comments).userScore = claimUserScore comments ∧
    (calculateUserScore comments).confidence = claimConfidence comments ∧
    (calculateUserScore comments).confidence ≤ 1 ∧
    (comments.filter (fun c => decide (0 < c.score)) = [] →
      (calculateUserScore comments).userScore = 0 ∧
      (calculateUserScore comments).confidence = 0) := by
  by_cases hempty : (comments.filter (fun c => decide (0 < c.score))).length = 0
  · have hnil : comments.filter (fun c => decide (0 < c.score)) = [] :=
      List.length_eq_zero.mp hempty
    refine ⟨?_, ?_, ?_, fun _ => ⟨?_, ?_⟩⟩ <;>
      simp [calculateUserScore, claimUserScore, claimConfidence, hempty, hnil]
  · refine ⟨?_, ?_, ?_, fun hnil => absurd (by rw [hnil]; rfl) hempty⟩
    · simp [calculateUserScore, claimUserScore, hempty]
    · simp [calculateUserScore, claimConfidence, hempty]
    · simp only [calculateUserScore, hempty, if_false]
      exact min_le_left _ _

/-- Helper: the retry loop makes at most one `fetch` call per remaining
attempt. -/
theorem hfRequestGo_calls_le {α : Type} (attempts : ℕ → HFOutcome α) :
    ∀ (remaining attempt : ℕ) (lastError : Option String) (calls : ℕ) (delays : List ℕ),
      (hfRequestGo attempts remaining attempt lastError calls delays).calls ≤
        calls + remaining := by
  intro remaining
  induction remaining with
  | zero => intro attempt lastError calls delays; simp [hfRequestGo]
  | succ r ih =>
    intro attempt lastError calls delays
    rw [hfRequestGo]
    cases attempts attempt <;> simp only []
    · simp [HFResult.calls]
    all_goals
      exact le_trans (ih _ _ _ _) (by omega)

/-- Helper: when no attempt in the remaining window succeeds, the loop
surfaces a failure envelope. -/
theorem hfRequestGo_all_fail {α : Type} (attempts : ℕ → HFOutcome α) :
    ∀ (remaining attempt : ℕ) (lastError : Option String) (calls : ℕ) (delays : List ℕ),
      (∀ i, attempt ≤ i → i < attempt + remaining → ∀ d, attempts i ≠ HFOutcome.ok d) →
      ∃ e, (hfRequestGo attempts remaining attempt lastError calls delays).result =
        Except.error e := by
  intro remaining
  induction remaining with
  | zero =>
    intro attempt lastError calls delays _
    exact ⟨lastError.getD "Max retries exceeded", rfl⟩
  | succ r ih =>
    intro attempt lastError calls delays hfail
    rw [hfRequestGo]
    cases hout : attempts attempt with
    | ok d => exact absurd hout (hfail attempt le_rfl (by omega) d)
    | rate429 => exact ih (attempt + 1) lastError _ _ (fun i h1 h2 => hfail i (by omega) (by omega))
    | loading503 => exact ih (attempt + 1) lastError _ _ (fun i h1 h2 => hfail i (by omega) (by omega))
    | httpErr s st b => exact ih (attempt + 1) _ _ _ (fun i h1 h2 => hfail i (by omega) (by omega))
    | netErr msg => exact ih (attempt + 1) _ _ _ (fun i h1 h2 => hfail i (by omega) (by omega))

/-- Helper: the first successful attempt's payload is returned, after
exactly that many `fetch` calls. -/
theorem hfRequestGo_first_ok {α : Type} (attempts : ℕ → HFOutcome α) :
    ∀ (remaining attempt : ℕ) (lastError : Option String) (calls : ℕ) (delays : List ℕ)
      (k : ℕ) (d : α),
      attempt ≤ k → k < attempt + remaining → attempts k = HFOutcome.ok d →
      (∀ i, attempt ≤ i → i < k → ∀ d2, attempts i ≠ HFOutcome.ok d2) →
      (hfRequestGo attempts remaining attempt lastError calls delays).result =
          Except.ok d ∧
        (hfRequestGo attempts remaining attempt lastError calls delays).calls =
          calls + (k - attempt) + 1 := by
  intro remaining
  induction remaining with
  | zero => intro attempt lastError calls delays k d h1 h2; omega
  | succ r ih =>
    intro attempt lastError calls delays k d h1 h2 hk hearlier
    rcases eq_or_lt_of_le h1 with heq | hlt
    · subst heq
      rw [hfRequestGo, hk]
      simp
    · have hnotok : ∀ d2, attempts attempt ≠ HFOutcome.ok d2 :=
        fun d2 => hearlier attempt le_rfl hlt d2
      have hrec : ∀ (le2 : Option String) (c2 : ℕ) (dl2 : List ℕ),
          (hfRequestGo attempts r (attempt + 1) le2 c2 dl2).result = Except.ok d ∧
          (hfRequestGo attempts r (attempt + 1) le2 c2 dl2).calls = c2 + (k - (attempt + 1)) + 1 :=
        fun le2 c2 dl2 => ih (attempt + 1) le2 c2 dl2 k d (by omega) (by omega) hk
          (fun i hi1 hi2 d2 => hearlier i (by omega) hi2 d2)
      rw [hfRequestGo]
      cases hout : attempts attempt with
      | ok d2 => exact absurd hout (hnotok d2)
      | rate429 => exact ⟨(hrec _ _ _).1, by rw [(hrec _ _ _).2]; omega⟩
      | loading503 => exact ⟨(hrec _ _ _).1, by rw [(hrec _ _ _).2]; omega⟩
      | httpErr s st b => exact ⟨(hrec _ _ _).1, by rw [(hrec _ _ _).2]; omega⟩
      | netErr msg => exact ⟨(hrec _ _ _).1, by rw [(hrec _ _ _).2]; omega⟩

/-- Helper: when every attempt hits the same non-429/503 HTTP error,
the loop uses up every remaining attempt and surfaces that error's
message (status, status text and body attached). -/
theorem hfRequestGo_httpErr_const {α : Type} (attempts : ℕ → HFOutcome α)
    (s : ℕ) (st b : String) (hconst : ∀ i, attempts i = HFOutcome.httpErr s st b) :
    ∀ (remaining attempt : ℕ) (lastError : Option String) (calls : ℕ) (delays : List ℕ),
      1 ≤ remaining →
      (hfRequestGo attempts remaining attempt lastError calls delays).result =
          Except.error (httpErrMsg s st b) ∧
        (hfRequestGo attempts remaining attempt lastError calls delays).calls =
          calls + remaining := by
  intro remaining
  induction remaining with
  | zero => intro attempt lastError calls delays h; omega
  | succ r ih =>
    intro attempt lastError calls delays _
    rw [hfRequestGo, hconst attempt]
    rcases Nat.eq_zero_or_pos r with hr | hr
    · subst hr
      exact ⟨rfl, rfl⟩
    · have h := ih (attempt + 1) (some (httpErrMsg s st b)) (calls + 1)
        (delays ++ if r = 0 then [] else [2 ^ attempt * 1000]) hr
      exact ⟨h.1, by rw [h.2]; omega⟩

/-- Helper: when every attempt times out / fails at the network level
with the same message, the loop uses up every remaining attempt and
surfaces that message — a timeout is retried like any transient
failure. -/
theorem hfRequestGo_netErr_const {α : Type} (attempts : ℕ → HFOutcome α)
    (msg : String) (hconst : ∀ i, attempts i = HFOutcome.netErr msg) :
    ∀ (remaining attempt : ℕ) (lastError : Option String) (calls : ℕ) (delays : List ℕ),
      1 ≤ remaining →
      (hfRequestGo attempts remaining attempt lastError calls delays).result =
          Except.error msg ∧
        (hfRequestGo attempts remaining attempt lastError calls delays).calls =
          calls + remaining := by
  intro remaining
  induction remaining with
  | zero => intro attempt lastError calls delays h; omega
  | succ r ih =>
    intro attempt lastError calls delays _
    rw [hfRequestGo, hconst attempt]
    rcases Nat.eq_zero_or_pos r with hr | hr
    · subst hr
      exact ⟨rfl, rfl⟩
    · have h := ih (attempt + 1) (some msg) (calls + 1)
        (delays ++ if r = 0 then [] else [2 ^ attempt * 1000]) hr
      exact ⟨h.1, by rw [h.2]; omega⟩

/-- Helper: under constant rate limiting the loop sleeps the exponential
backoff schedule `2^attempt * 1000` ms for every attempt and then fails
with the generic ceiling message. -/
theorem hfRequestGo_rate429_const {α : Type} (attempts : ℕ → HFOutcome α)
    (hconst : ∀ i, attempts i = HFOutcome.rate429) :
    ∀ (remaining attempt : ℕ) (lastError : Option String) (calls : ℕ) (delays : List ℕ),
      hfRequestGo attempts remaining attempt lastError calls delays =
        { result := Except.error (lastError.getD "Max retries exceeded"),
          calls := calls + remaining,
          delays := delays ++ (List.range remaining).map (fun j => 2 ^ (attempt + j) * 1000) } := by
  intro remaining
  induction remaining with
  | zero =>
    intro attempt lastError calls delays
    simp [hfRequestGo]
  | succ r ih =>
    intro attempt lastError calls delays
    rw [hfRequestGo, hconst attempt, ih (attempt + 1) lastError (calls + 1)]
    have hrange : (List.range (r + 1)).map (fun j => 2 ^ (attempt + j) * 1000) =
        2 ^ attempt * 1000 :: (List.range r).map (fun j => 2 ^ (attempt + 1 + j) * 1000) := by
      rw [List.range_succ_eq_map, List.map_cons, List.map_map]
      refine congrArg₂ _ (by simp) ?_
      refine List.map_congr_left (fun j _ => ?_)
      have : attempt + (j + 1) = attempt + 1 + j := by omega
      simp [Function.comp, this]
    rw [hrange]
    simp only [List.append_assoc, List.singleton_append]
    congr 1
    omega

/-- C5 counterexample: with every attempt answering HTTP 400, the
transport makes all 3 configured attempts (sleeping backoff 1000 ms and
2000 ms between them) rather than failing immediately after one call as
the claim states. -/
theorem c5_http_error_is_retried :
    (hfRequest (fun _ => (HFOutcome.httpErr 400 "Bad Request" "invalid input" : HFOutcome ℕ))
        3).calls = 3 ∧
    (hfRequest (fun _ => (HFOutcome.httpErr 400 "Bad Request" "invalid input" : HFOutcome ℕ))
        3).delays = [1000, 2000] ∧
    (hfRequest (fun _ => (HFOutcome.httpErr 400 "Bad Request" "invalid input" : HFOutcome ℕ))
        3).calls ≠ 1 :=
  ⟨rfl, rfl, by decide⟩

/-- C5 amended: the transport makes at most `maxRetries` `fetch` calls;
it returns the first successful attempt's payload; 429 and 503 are
retried with the exponential backoff schedule until the ceiling, then
surface the generic failure; any other non-success HTTP status is NOT
failed immediately — the thrown error is caught and retried like a
timeout, the ceiling is used up, and the surfaced failure carries the
error message with status, status text and body attached; a network
error / timeout is likewise a retryable failure. -/
theorem c5_transport_retry_contract {α : Type} (attempts : ℕ → HFOutcome α) (m : ℕ) :
    (hfRequest attempts m).calls ≤ m ∧
    ((∀ i, i < m → ∀ d, attempts i ≠ HFOutcome.ok d) →
      ∃ e, (hfRequest attempts m).result = Except.error e) ∧
    (∀ k d, k < m → attempts k = HFOutcome.ok d →
      (∀ i, i < k → ∀ d2, attempts i ≠ HFOutcome.ok d2) →
      (hfRequest attempts m).result = Except.ok d ∧ (hfRequest attempts m).calls = k + 1) ∧
    (∀ s st b, (∀ i, attempts i = HFOutcome.httpErr s st b) → 1 ≤ m →
      (hfRequest attempts m).result = Except.error (httpErrMsg s st b) ∧
        (hfRequest attempts m).calls = m) ∧
    (∀ msg, (∀ i, attempts i = HFOutcome.netErr msg) → 1 ≤ m →
      (hfRequest attempts m).result = Except.error msg ∧
        (hfRequest attempts m).calls = m) ∧
    ((∀ i, attempts i = HFOutcome.rate429) →
      (hfRequest attempts m).delays = (List.range m).map (fun j => 2 ^ j * 1000) ∧
        (hfRequest attempts m).result = Except.error "Max retries exceeded") := by
  refine ⟨?_, ?_, ?_, ?_, ?_, ?_⟩
  · simpa using hfRequestGo_calls_le attempts m 0 none 0 []
  · intro hfail
    exact hfRequestGo_all_fail attempts m 0 none 0 []
      (fun i h1 h2 d => hfail i (by omega) d)
  · intro k d hk hok hearlier
    have h := hfRequestGo_first_ok attempts m 0 none 0 [] k d (Nat.zero_le k)
      (by omega) hok (fun i h1 h2 d2 => hearlier i h2 d2)
    exact ⟨h.1, by rw [hfRequest] at *; omega⟩
  · intro s st b hconst hm
    simpa [hfRequest] using
      hfRequestGo_httpErr_const attempts s st b hconst m 0 none 0 [] hm
  · intro msg hconst hm
    simpa [hfRequest] using hfRequestGo_netErr_const attempts msg hconst m 0 none 0 [] hm
  · intro hconst
    rw [hfRequest, hfRequestGo_rate429_const attempts hconst m 0 none 0 []]
    simp

/-- C5 witness: the amended contract at the constantly rate-limited
oracle with the default 3 attempts. -/
theorem c5_transport_retry_contract_witness :
    (hfRequest (fun _ => (HFOutcome.rate429 : HFOutcome ℕ)) 3).delays = [1000, 2000, 4000] ∧
    (hfRequest (fun _ => (HFOutcome.rate429 : HFOutcome ℕ)) 3).result =
      Except.error "Max retries exceeded" := by
  have h := (c5_transport_retry_contract (fun _ => (HFOutcome.rate429 : HFOutcome ℕ))
    3).2.2.2.2.2 (fun _ => rfl)
  exact ⟨by rw [h.1]; rfl, h.2⟩

/-- Helper: the C1 failing input's raw BPC is exactly 4 bits per
character — its 16 characters are pairwise distinct, so the character
distribution is uniform with probability 1/16. -/
theorem calculateBPC_exBotText : calculateBPC exBotText = 4 := by
  have hnorm : trimWs (collapseWs exBotText.data) = exBotText.data := by decide
  have hfreq : freqValues exBotText.data = List.replicate 16 1 := by decide
  have hlen : exBotText.data.length = 16 := by decide
  have hlogb : Real.logb 2 (1/16 : ℝ) = -4 := by
    rw [one_div, Real.logb_inv]
    rw [show (16 : ℝ) = 2 ^ (4 : ℕ) by norm_num]
    rw [Real.logb_pow, Real.logb_self_eq_one (by norm_num)]
    norm_num
  unfold calculateBPC
  rw [if_neg (by decide)]
  simp only [hnorm, hfreq, hlen]
  rw [List.map_replicate, List.sum_replicate, nsmul_eq_mul]
  push_cast
  rw [hlogb]
  norm_num

/-- C1: the claim fails on the code, which contradicts its own type
documentation (`score: number; // 0..1 bot-likelihood`,
`userScore: number; // 0..1`).  `processRequest` stores the raw entropy
`analysis.bpcScore` — not `analysis.normalizedScore` — into each
summary's `score`, so on the 16-character all-distinct text the
entropy-stage score is 4, the aggregate userScore over that single item
is 4, and both exceed 1; the unused `normalizedScore` for the same text
is 1/15, inside [0,1] as documented. -/
theorem c1_raw_entropy_stored_as_score :
    calculateBPC exBotText = 4 ∧
    (initialSummary (BPC_DEFAULT_CONFIG ℝ) "x" exBotText 16).score = 4 ∧
    (calculateUserScore
      [initialSummary (BPC_DEFAULT_CONFIG ℝ) "x" exBotText 16]).userScore = 4 ∧
    ¬ ((4 : ℝ) ≤ 1) ∧
    (analyzeBPC (BPC_DEFAULT_CONFIG ℝ) exBotText).normalizedScore = 1/15 := by
  have hmin : ¬ (exBotText.length < (BPC_DEFAULT_CONFIG ℝ).minLength) := by
    decide
  have hscore : (initialSummary (BPC_DEFAULT_CONFIG ℝ) "x" exBotText 16).score = 4 := by
    simp only [initialSummary, analyzeBPC, if_neg hmin]
    exact calculateBPC_exBotText
  refine ⟨calculateBPC_exBotText, hscore, ?_, by norm_num, ?_⟩
  · have hpos : (0 : ℝ) <
        (initialSummary (BPC_DEFAULT_CONFIG ℝ) "x" exBotText 16).score := by
      rw [hscore]; norm_num
    have hfilter :
        List.filter (fun c => decide (0 < c.score))
          [initialSummary (BPC_DEFAULT_CONFIG ℝ) "x" exBotText 16] =
          [initialSummary (BPC_DEFAULT_CONFIG ℝ) "x" exBotText 16] := by
      simp [List.filter, decide_eq_true hpos]
    simp only [calculateUserScore, hfilter]
    norm_num [hscore]
  · simp only [analyzeBPC, if_neg hmin, calculateBPC_exBotText]
    rw [normalizeBPCScore]
    rw [if_neg (by norm_num : ¬ ((4 : ℝ) ≤ 0))]
    simp only [BPC_NORMALIZATION]
    rw [show max (1/2 : ℝ) (min 5 4) = 4 by norm_num [min_def, max_def]]
    rw [if_neg (by norm_num : ¬ ((4 : ℝ) ≤ 3/2)),
      if_neg (by norm_num : ¬ ((4 : ℝ) ≤ 2))]
    rw [show min (1 : ℝ) ((4 - 2) / (5 - 2)) = 2/3 by norm_num [min_def]]
    norm_num
